import Mathlib

/-!
Shallow embedding of `src/app.py` (Custom-RSS-Feeds): the per-page metadata
extraction pipeline (`extract_date`, the field chains inside
`scrape_data_to_json`), the aggregation loop with its per-site error
handling, the final sort, and the RSS entry loop of `rss_feed`.

Modelling conventions:
- A page's relevant DOM facts are captured in a `Page` structure: for each
  `soup.find(...)` call in the source, an `Option` field records whether the
  tag is found and (nested `Option`) whether the accessed attribute is
  present.  `soup.title.string` may be `None` in Python (tag present but no
  single direct string), hence `titleTag : Option (Option String)`.
- The network is part of the input: each configured site carries its fetch
  outcome (`FetchOutcome.ok page` for a 2xx response with parsed HTML,
  `FetchOutcome.reqError msg` for any `requests.exceptions.RequestException`,
  which includes timeouts, connection errors and `raise_for_status` on
  non-2xx).
- `dateutil.parser.parse` is abstracted as an explicit parameter
  `p : String → Option PyDateTime` (`none` models `ParserError`/`TypeError`).
- `datetime.now(timezone.utc)` is passed in as a parameter `now`.
- Python exceptions that the source does not catch are modelled with
  `Except PyExn`; the only uncaught exception reachable in the scrape loop is
  the `AttributeError` from `soup.title.string.strip()` when `.string` is
  `None`.
- Python dicts built by the source are modelled as association lists
  (`Record`), so statements about which keys exist are faithful to the code.
-/

/-- Python exceptions that the embedded code can raise without catching. -/
inductive PyExn where
  | attributeError
  | parserError
deriving DecidableEq

deriving instance DecidableEq for Except

/-- A JSON-able value stored in one of the source's dicts: the source only
stores strings and `None` (for `image_url`). -/
inductive JVal where
  | str (s : String)
  | null
deriving DecidableEq

/-- A dict produced by `scrape_data_to_json`, as an association list in the
source's literal key order. -/
abbrev Record := List (String × JVal)

/-- Dict key lookup (first match; the source's dict literals have distinct
keys, so this is exact). -/
def dictGet : Record → String → Option JVal
  | [], _ => none
  | (k1, v) :: rest, k => if k1 = k then some v else dictGet rest k

/-- Characters stripped by Python `str.strip()` (ASCII whitespace; the
source's inputs are modelled over this set). -/
def isPyWS (c : Char) : Bool :=
  c = ' ' || c = '\t' || c = '\n' || c = '\r' || c = Char.ofNat 11 || c = Char.ofNat 12

/-- Python `s.strip()`: drop leading and trailing whitespace. -/
def pyStrip (s : String) : String :=
  String.mk (((s.data.dropWhile isPyWS).reverse.dropWhile isPyWS).reverse)

/-- Python `s[:n]`: the first `n` code points. -/
def pyTake (s : String) (n : Nat) : String :=
  String.mk (s.data.take n)

/-- Lexicographic strict order on code-point lists: Python's `<` on `str`. -/
def charListLt : List Char → List Char → Bool
  | [], [] => false
  | [], _ :: _ => true
  | _ :: _, [] => false
  | a :: as, b :: bs =>
      a.toNat < b.toNat || (a.toNat == b.toNat && charListLt as bs)

/-- Python string `<`. -/
def strLt (a b : String) : Bool := charListLt a.data b.data

/-- `needle` occurs at the start of `hay`. -/
def subAt (needle hay : List Char) : Bool :=
  needle == hay.take needle.length

/-- `needle` occurs somewhere inside `hay` (Python `needle in hay`). -/
def hasSub (needle : List Char) : List Char → Bool
  | [] => needle.isEmpty
  | c :: rest => subAt needle (c :: rest) || hasSub needle rest

/-- String containment, Python `needle in hay`. -/
def hasSubStr (needle hay : String) : Bool := hasSub needle.data hay.data

/-- A `datetime.datetime` value: civil fields plus an optional UTC offset in
minutes (`none` models a naive datetime, `tzinfo is None`). -/
structure PyDateTime where
  year : Nat
  month : Nat
  day : Nat
  hour : Nat
  minute : Nat
  second : Nat
  tzOffMin : Option Int
deriving DecidableEq

/-- The timezone fix-up in `extract_date`: a naive parse result is stamped
with UTC (`dt.replace(tzinfo=timezone.utc)`). -/
def tzFix (dt : PyDateTime) : PyDateTime :=
  if dt.tzOffMin.isNone then { dt with tzOffMin := some 0 } else dt

/-- Zero-padded two-digit decimal, as Python `%02d` for values below 100. -/
def pad2 (n : Nat) : String :=
  if n < 10 then "0" ++ toString n else toString n

/-- Zero-padded four-digit decimal, as Python `%04d` for values below 10000. -/
def pad4 (n : Nat) : String :=
  if n < 10 then "000" ++ toString n
  else if n < 100 then "00" ++ toString n
  else if n < 1000 then "0" ++ toString n
  else toString n

/-- The `±HH:MM` suffix `datetime.isoformat()` prints for an aware value
with a whole-minute offset. -/
def offsetSuffix (off : Int) : String :=
  if 0 ≤ off then
    "+" ++ pad2 (off.toNat / 60) ++ ":" ++ pad2 (off.toNat % 60)
  else
    "-" ++ pad2 ((-off).toNat / 60) ++ ":" ++ pad2 ((-off).toNat % 60)

/-- `datetime.isoformat()` at second resolution (the pipeline's datetimes
carry zero microseconds). -/
def isoString (dt : PyDateTime) : String :=
  pad4 dt.year ++ "-" ++ pad2 dt.month ++ "-" ++ pad2 dt.day ++ "T" ++
    pad2 dt.hour ++ ":" ++ pad2 dt.minute ++ ":" ++ pad2 dt.second ++
    (match dt.tzOffMin with
     | none => ""
     | some off => offsetSuffix off)

/-- Days since 0000-03-01 in the proleptic Gregorian calendar (valid for
year ≥ 1); used only to compare instants chronologically. -/
def daysFromCivil (y m d : Nat) : Nat :=
  let y1 := y - (if m ≤ 2 then 1 else 0)
  let era := y1 / 400
  let yoe := y1 % 400
  let mp := (m + 9) % 12
  let doy := (153 * mp + 2) / 5 + d - 1
  let doe := yoe * 365 + yoe / 4 - yoe / 100 + doy
  era * 146097 + doe

/-- The chronological instant (seconds, shifted epoch) denoted by an aware
`PyDateTime`; a naive value is read as UTC. -/
def toInstantSec (dt : PyDateTime) : Int :=
  ((daysFromCivil dt.year dt.month dt.day * 86400 +
      dt.hour * 3600 + dt.minute * 60 + dt.second : Nat) : Int) -
    dt.tzOffMin.getD 0 * 60

/-- The DOM facts that `scrape_data_to_json` and `extract_date` read from a
parsed page.  Outer `Option`: the `soup.find` result; inner `Option`: the
accessed attribute / `.string`. -/
structure Page where
  /-- `soup.title`, and its `.string` (which is `None` when the tag has no
  single direct text child). -/
  titleTag : Option (Option String)
  /-- `soup.find('meta', attrs={'name': 'author'})`, and its `content`. -/
  metaAuthor : Option (Option String)
  /-- `soup.find('meta', attrs={'property': 'og:site_name'})`. -/
  metaOgSiteName : Option (Option String)
  /-- `soup.find('meta', attrs={'name': 'description'})`. -/
  metaDescription : Option (Option String)
  /-- `soup.find('meta', attrs={'property': 'og:description'})`. -/
  metaOgDescription : Option (Option String)
  /-- `soup.find('meta', attrs={'property': 'og:image'})`. -/
  metaOgImage : Option (Option String)
  /-- `soup.find('p')` and its `get_text()`. -/
  firstP : Option String
  /-- `soup.find('meta', attrs={'property': 'article:published_time'})`. -/
  metaArticlePublished : Option (Option String)
  /-- `soup.find('meta', attrs={'name': 'date'})`. -/
  metaDateName : Option (Option String)
  /-- `soup.find('time', attrs={'datetime': True})`: the `datetime`
  attribute of the first matching tag (present by the selector). -/
  timeTag : Option String
deriving DecidableEq

/-- Outcome of `requests.get(url, ...)` + `raise_for_status()`. -/
inductive FetchOutcome where
  | ok (page : Page)
  | reqError (msg : String)
deriving DecidableEq

/-- One configured site: its URL and what the network returns for it. -/
structure Site where
  url : String
  fetch : FetchOutcome
deriving DecidableEq

/-- One iteration of the selector loop in `extract_date`: the found tag's
attribute string, if truthy and parseable, yields the (tz-fixed) datetime;
otherwise the loop moves on. -/
def tryTag (p : String → Option PyDateTime) : Option (Option String) → Option PyDateTime
  | none => none
  | some none => none
  | some (some s) => if s = "" then none else (p s).map tzFix

/-- `extract_date(soup)`: scan `article:published_time`, `meta[name=date]`,
`<time datetime>` in order; first parseable wins; else now (UTC). -/
def extract_date (p : String → Option PyDateTime) (now : PyDateTime)
    (page : Page) : PyDateTime :=
  match tryTag p page.metaArticlePublished with
  | some dt => dt
  | none =>
    match tryTag p page.metaDateName with
    | some dt => dt
    | none =>
      match tryTag p (Option.map some page.timeTag) with
      | some dt => dt
      | none => now

/-- The author chain: `meta[name=author]` content, else `og:site_name`
content, else `"Unknown Source"`.  The source tests `'content' in attrs`
only, so a present-but-empty content attribute is used (stripped). -/
def extractAuthor (page : Page) : String :=
  match page.metaAuthor with
  | some (some c) => pyStrip c
  | _ =>
    match page.metaOgSiteName with
    | some (some c) => pyStrip c
    | _ => "Unknown Source"

/-- The meta-tag part of the description chain: `og:description` content,
elif `meta[name=description]` content, else `""`. -/
def metaDescriptionValue (page : Page) : String :=
  match page.metaOgDescription with
  | some (some c) => pyStrip c
  | _ =>
    match page.metaDescription with
    | some (some c) => pyStrip c
    | _ => ""

/-- The description chain: if the meta value is falsy, fall back to the
first `<p>`'s stripped text, cut to 200 characters plus `"..."` when longer
than 200; with no `<p>` at all, a fixed default. -/
def extractDescription (page : Page) : String :=
  let d := metaDescriptionValue page
  if d = "" then
    match page.firstP with
    | some ptext =>
        let t := pyStrip ptext
        if 200 < t.length then pyTake t 200 ++ "..." else t
    | none => "No robust summary found."
  else d

/-- The image chain: `og:image` content stripped, else `None`.  The source
applies no base-URL resolution (`urljoin` is imported but never called). -/
def extractImage (page : Page) : JVal :=
  match page.metaOgImage with
  | some (some c) => JVal.str (pyStrip c)
  | _ => JVal.null

/-- The success-record dict literal appended at the end of the `try` block,
with the already-computed title text. -/
def buildOkRecord (p : String → Option PyDateTime) (now : PyDateTime)
    (url : String) (page : Page) (title : String) : Record :=
  [("title", JVal.str title),
   ("url", JVal.str url),
   ("author", JVal.str (extractAuthor page)),
   ("description", JVal.str (extractDescription page)),
   ("image_url", extractImage page),
   ("pub_date", JVal.str (isoString (extract_date p now page))),
   ("source_name", JVal.str (extractAuthor page))]

/-- The failure-record dict literal appended in the
`except requests.exceptions.RequestException` handler. -/
def failRecord (url msg : String) (now : PyDateTime) : Record :=
  [("title", JVal.str ("Scraping Failed for: " ++ url)),
   ("url", JVal.str url),
   ("author", JVal.str "System Error"),
   ("description", JVal.str ("Could not reach or parse site. Error: " ++ msg)),
   ("image_url", JVal.str "https://placehold.co/150x100/A0A0A0/FFFFFF?text=Error"),
   ("pub_date", JVal.str (isoString now)),
   ("source_name", JVal.str "Error")]

/-- One loop iteration of `scrape_data_to_json` for one site: a
`RequestException` is caught and synthesised into a failure record; the
title extraction's `AttributeError` (when `soup.title.string` is `None`) is
not caught and propagates. -/
def processSite (p : String → Option PyDateTime) (now : PyDateTime)
    (site : Site) : Except PyExn Record :=
  match site.fetch with
  | FetchOutcome.reqError msg => Except.ok (failRecord site.url msg now)
  | FetchOutcome.ok page =>
    match page.titleTag with
    | some none => Except.error PyExn.attributeError
    | some (some t) => Except.ok (buildOkRecord p now site.url page (pyStrip t))
    | none => Except.ok (buildOkRecord p now site.url page ("Untitled Page: " ++ site.url))

/-- The `for url in sites` loop: records accumulate in order; an uncaught
exception aborts the remainder. -/
def mapExcept (f : α → Except PyExn β) : List α → Except PyExn (List β)
  | [] => Except.ok []
  | a :: rest =>
    match f a with
    | Except.error e => Except.error e
    | Except.ok r =>
      match mapExcept f rest with
      | Except.error e => Except.error e
      | Except.ok rs => Except.ok (r :: rs)

/-- The sort key `x.get('pub_date', '')` (the value is always a string in
every record the source builds). -/
def pubKey (r : Record) : String :=
  match dictGet r "pub_date" with
  | some (JVal.str s) => s
  | _ => ""

/-- Stable descending insertion by `pubKey`: an element moves past exactly
the records with a strictly larger key, so equal keys keep their original
relative order — the semantics of Python's stable
`list.sort(key=..., reverse=True)`. -/
def insertDesc (x : Record) : List Record → List Record
  | [] => [x]
  | h :: t => if strLt (pubKey x) (pubKey h) then h :: insertDesc x t else x :: h :: t

/-- `data.sort(key=lambda x: x.get('pub_date', ''), reverse=True)`:
stable descending sort by the ISO date string. -/
def sortDescByPub (l : List Record) : List Record :=
  l.foldr insertDesc []

/-- `scrape_data_to_json()`: empty configuration yields the error sentinel
list; otherwise one record per site (failure records included), sorted by
`pub_date` string descending. -/
def scrape_data_to_json (p : String → Option PyDateTime) (now : PyDateTime)
    (sites : List Site) : Except PyExn (List Record) :=
  match sites with
  | [] => Except.ok [[("error", JVal.str "No sites configured in sites.txt")]]
  | s :: rest =>
    match mapExcept (processSite p now) (s :: rest) with
    | Except.error e => Except.error e
    | Except.ok recs => Except.ok (sortDescByPub recs)

/-- One `<item>` as `rss_feed` builds it with feedgen. -/
structure RssEntry where
  entryId : String
  title : String
  linkHref : String
  /-- `fe.pubDate(...)` inside `try/except: pass` — absent when the stored
  date string fails to re-parse. -/
  pubDate : Option PyDateTime
  content : String
  authorName : String
deriving DecidableEq

/-- `item['k']` for the string-valued keys read in the entry loop (every
non-error record built by the scraper carries all of these keys, so the
`KeyError` case is unreachable there). -/
def itemStr (item : Record) (k : String) : String :=
  match dictGet item k with
  | some (JVal.str s) => s
  | _ => ""

/-- Python truthiness of `item['image_url']`: `None` and `""` are falsy. -/
def imageTruthy (item : Record) : Option String :=
  match dictGet item "image_url" with
  | some (JVal.str s) => if s = "" then none else some s
  | _ => none

/-- The `rich_content` HTML assembled for one entry, with `strftime`
abstracted as `fmt`. -/
def richContent (fmt : PyDateTime → String) (item : Record) (dt : PyDateTime) : String :=
  (match imageTruthy item with
   | some img =>
       "<p><img src=\"" ++ img ++ "\" alt=\"" ++ itemStr item "title" ++
         "\" style=\"max-width: 100%; height: auto; border-radius: 8px;\"></p>"
   | none => "")
  ++ "<p><strong>Author:</strong> " ++ itemStr item "author" ++ "</p>"
  ++ "<p><strong>Date:</strong> " ++ fmt dt ++ "</p>"
  ++ "<hr>"
  ++ "<p>" ++ itemStr item "description" ++ "</p>"

/-- Building one entry: the second, unguarded
`dateparser.parse(item["pub_date"])` on the Date line raises when the string
does not parse; the guarded `fe.pubDate` call never does. -/
def buildEntry (q : String → Option PyDateTime) (fmt : PyDateTime → String)
    (item : Record) : Except PyExn RssEntry :=
  match q (itemStr item "pub_date") with
  | none => Except.error PyExn.parserError
  | some dt =>
    Except.ok
      { entryId := itemStr item "url"
        title := itemStr item "title"
        linkHref := itemStr item "url"
        pubDate := some dt
        content := richContent fmt item dt
        authorName := itemStr item "author" }

/-- The entry loop of `rss_feed`: `if 'error' in item: continue`, then one
entry per remaining record, in order. -/
def rss_feed_entries (q : String → Option PyDateTime) (fmt : PyDateTime → String)
    (data : List Record) : Except PyExn (List RssEntry) :=
  mapExcept (buildEntry q fmt)
    (data.filter (fun item => (dictGet item "error").isNone))

/-! ### Order and stability lemmas for the sort -/

theorem charListLt_irrefl : ∀ l : List Char, charListLt l l = false := by
  intro l
  induction l with
  | nil => rfl
  | cons a as ih => simp [charListLt, ih]

theorem charListLt_asymm : ∀ a b : List Char,
    charListLt a b = true → charListLt b a = false := by
  intro a
  induction a with
  | nil =>
    intro b h
    cases b with
    | nil => simp [charListLt] at h
    | cons c cs => rfl
  | cons x xs ih =>
    intro b h
    cases b with
    | nil => simp [charListLt] at h
    | cons y ys =>
      simp only [charListLt, Bool.or_eq_true, Bool.and_eq_true,
        decide_eq_true_eq, beq_iff_eq] at h
      rcases h with h1 | ⟨h1, h2⟩
      · have hy : (y.toNat == x.toNat) = false := by
          simp
          omega
        have hd : (decide (y.toNat < x.toNat)) = false := by
          simp
          omega
        simp [charListLt, hy, hd]
      · have h3 : charListLt ys xs = false := ih ys h2
        simp [charListLt, h3]
        omega

theorem strLt_irrefl (s : String) : strLt s s = false :=
  charListLt_irrefl s.data

theorem strLt_asymm {a b : String} (h : strLt a b = true) : strLt b a = false :=
  charListLt_asymm a.data b.data h

theorem strLt_eq_false_of_eq {a b : String} (h : a = b) : strLt a b = false := by
  subst h
  exact strLt_irrefl a

theorem insertDesc_chain (x : Record) :
    ∀ l : List Record,
      List.Chain' (fun a b => strLt (pubKey a) (pubKey b) = false) l →
      List.Chain' (fun a b => strLt (pubKey a) (pubKey b) = false) (insertDesc x l) := by
  intro l
  induction l with
  | nil =>
    intro _
    simp [insertDesc]
  | cons h1 t ih =>
    intro hc
    by_cases hlt : strLt (pubKey x) (pubKey h1) = true
    · have hrec : List.Chain' (fun a b => strLt (pubKey a) (pubKey b) = false)
          (insertDesc x t) := ih hc.tail
      have hstep : insertDesc x (h1 :: t) = h1 :: insertDesc x t := by
        simp [insertDesc, hlt]
      rw [hstep]
      apply List.chain'_cons'.mpr
      refine ⟨?_, hrec⟩
      intro y hy
      cases t with
      | nil =>
        simp [insertDesc] at hy
        subst hy
        exact strLt_asymm hlt
      | cons h2 t2 =>
        by_cases hlt2 : strLt (pubKey x) (pubKey h2) = true
        · have : insertDesc x (h2 :: t2) = h2 :: insertDesc x t2 := by
            simp [insertDesc, hlt2]
          rw [this] at hy
          simp at hy
          subst hy
          exact (List.chain'_cons.mp hc).1
        · have : insertDesc x (h2 :: t2) = x :: h2 :: t2 := by
            simp [insertDesc, hlt2]
          rw [this] at hy
          simp at hy
          subst hy
          exact strLt_asymm hlt
    · have hstep : insertDesc x (h1 :: t) = x :: h1 :: t := by
        simp [insertDesc, hlt]
      rw [hstep]
      apply List.chain'_cons.mpr
      exact ⟨by simpa using hlt, hc⟩

theorem sortDescByPub_chain (l : List Record) :
    List.Chain' (fun a b => strLt (pubKey a) (pubKey b) = false) (sortDescByPub l) := by
  induction l with
  | nil => simp [sortDescByPub]
  | cons a t ih =>
    have : sortDescByPub (a :: t) = insertDesc a (sortDescByPub t) := rfl
    rw [this]
    exact insertDesc_chain a (sortDescByPub t) ih

theorem insertDesc_filter (k : String) (x : Record) :
    ∀ l : List Record,
      (insertDesc x l).filter (fun r => pubKey r == k)
        = if pubKey x = k then x :: l.filter (fun r => pubKey r == k)
          else l.filter (fun r => pubKey r == k) := by
  intro l
  induction l with
  | nil =>
    by_cases hx : pubKey x = k <;> simp [insertDesc, hx]
  | cons h1 t ih =>
    by_cases hlt : strLt (pubKey x) (pubKey h1) = true
    · have hstep : insertDesc x (h1 :: t) = h1 :: insertDesc x t := by
        simp [insertDesc, hlt]
      rw [hstep, List.filter_cons, ih]
      by_cases hx : pubKey x = k
      · have hh1 : ¬ pubKey h1 = k := by
          intro hh
          rw [hx, hh, strLt_irrefl k] at hlt
          exact Bool.false_ne_true hlt
        simp [List.filter_cons, hx, hh1]
      · simp [List.filter_cons, hx]
    · have hstep : insertDesc x (h1 :: t) = x :: h1 :: t := by
        simp [insertDesc, hlt]
      rw [hstep]
      by_cases hx : pubKey x = k <;> simp [List.filter_cons, hx]

theorem sortDescByPub_filter (k : String) (l : List Record) :
    (sortDescByPub l).filter (fun r => pubKey r == k)
      = l.filter (fun r => pubKey r == k) := by
  induction l with
  | nil => rfl
  | cons a t ih =>
    have hstep : sortDescByPub (a :: t) = insertDesc a (sortDescByPub t) := rfl
    rw [hstep, insertDesc_filter k a (sortDescByPub t), ih]
    by_cases hx : pubKey a = k <;> simp [List.filter_cons, hx]

theorem insertDesc_length (x : Record) :
    ∀ l : List Record, (insertDesc x l).length = l.length + 1 := by
  intro l
  induction l with
  | nil => rfl
  | cons h1 t ih =>
    by_cases hlt : strLt (pubKey x) (pubKey h1) = true
    · simp [insertDesc, hlt, ih]
    · simp [insertDesc, hlt]

theorem sortDescByPub_length (l : List Record) :
    (sortDescByPub l).length = l.length := by
  induction l with
  | nil => rfl
  | cons a t ih =>
    have hstep : sortDescByPub (a :: t) = insertDesc a (sortDescByPub t) := rfl
    rw [hstep, insertDesc_length, ih]
    simp

/-! ### Substring lemmas -/

theorem hasSub_nil (l : List Char) : hasSub [] l = true := by
  cases l with
  | nil => rfl
  | cons c r => simp [hasSub, subAt]

theorem subAt_append_left {nd a : List Char} (b : List Char)
    (h : subAt nd a = true) : subAt nd (a ++ b) = true := by
  have he : nd = a.take nd.length := by
    simpa [subAt] using h
  have h1 := congrArg List.length he
  simp [List.length_take] at h1
  have hlen : nd.length ≤ a.length := by omega
  unfold subAt
  rw [List.take_append_of_le_length hlen, ← he]
  simp

theorem hasSub_append_left {nd : List Char} :
    ∀ a b : List Char, hasSub nd a = true → hasSub nd (a ++ b) = true := by
  intro a
  induction a with
  | nil =>
    intro b h
    have he : nd = [] := by
      simpa [hasSub, List.isEmpty_iff] using h
    subst he
    exact hasSub_nil b
  | cons c rest ih =>
    intro b h
    simp only [hasSub, Bool.or_eq_true] at h
    rcases h with h1 | h2
    · have h3 := subAt_append_left b h1
      simp only [List.cons_append, hasSub, Bool.or_eq_true]
      left
      simpa [List.cons_append] using h3
    · simp only [List.cons_append, hasSub, Bool.or_eq_true]
      right
      exact ih b h2

theorem hasSub_append_right {nd : List Char} :
    ∀ a b : List Char, hasSub nd b = true → hasSub nd (a ++ b) = true := by
  intro a
  induction a with
  | nil => intro b h; exact h
  | cons c rest ih =>
    intro b h
    simp only [List.cons_append, hasSub, Bool.or_eq_true]
    right
    exact ih b h

theorem hasSub_self (nd : List Char) : hasSub nd nd = true := by
  cases nd with
  | nil => rfl
  | cons c r => simp [hasSub, subAt, List.take_length]

/-! ### Which sites can abort the aggregation -/

/-- A site whose processing cannot raise: either the fetch failed (the
handler catches `RequestException`) or the page's `<title>` tag, when
present, has a direct string — otherwise `soup.title.string.strip()`
raises an uncaught `AttributeError`. -/
def titleSafe (s : Site) : Bool :=
  match s.fetch with
  | FetchOutcome.reqError _ => true
  | FetchOutcome.ok page => page.titleTag != some none

theorem processSite_ok (p : String → Option PyDateTime) (now : PyDateTime)
    (s : Site) (h : titleSafe s = true) :
    ∃ r, processSite p now s = Except.ok r := by
  cases s with
  | mk url fetch =>
    cases fetch with
    | reqError msg => exact ⟨failRecord url msg now, rfl⟩
    | ok page =>
      cases htt : page.titleTag with
      | none =>
        exact ⟨buildOkRecord p now url page ("Untitled Page: " ++ url),
          by simp [processSite, htt]⟩
      | some t =>
        cases t with
        | none =>
          have : page.titleTag ≠ some none := by
            simpa [titleSafe] using h
          exact absurd htt this
        | some ts =>
          exact ⟨buildOkRecord p now url page (pyStrip ts),
            by simp [processSite, htt]⟩

theorem mapExcept_ok_of_safe (p : String → Option PyDateTime) (now : PyDateTime) :
    ∀ sites : List Site, (∀ s ∈ sites, titleSafe s = true) →
      ∃ recs, mapExcept (processSite p now) sites = Except.ok recs ∧
        recs.length = sites.length := by
  intro sites
  induction sites with
  | nil =>
    intro _
    exact ⟨[], rfl, rfl⟩
  | cons s rest ih =>
    intro h
    obtain ⟨r, hr⟩ := processSite_ok p now s (h s (by simp))
    obtain ⟨rs, hrs, hlen⟩ := ih (fun t ht => h t (by simp [ht]))
    refine ⟨r :: rs, ?_, by simp [hlen]⟩
    simp [mapExcept, hr, hrs]

/-! ### Key projections of the success record -/

theorem buildOk_title (p : String → Option PyDateTime) (now : PyDateTime)
    (url : String) (page : Page) (t : String) :
    dictGet (buildOkRecord p now url page t) "title" = some (JVal.str t) := rfl

theorem buildOk_author (p : String → Option PyDateTime) (now : PyDateTime)
    (url : String) (page : Page) (t : String) :
    dictGet (buildOkRecord p now url page t) "author"
      = some (JVal.str (extractAuthor page)) := rfl

theorem buildOk_description (p : String → Option PyDateTime) (now : PyDateTime)
    (url : String) (page : Page) (t : String) :
    dictGet (buildOkRecord p now url page t) "description"
      = some (JVal.str (extractDescription page)) := rfl

theorem buildOk_image (p : String → Option PyDateTime) (now : PyDateTime)
    (url : String) (page : Page) (t : String) :
    dictGet (buildOkRecord p now url page t) "image_url"
      = some (extractImage page) := rfl

theorem buildOk_source (p : String → Option PyDateTime) (now : PyDateTime)
    (url : String) (page : Page) (t : String) :
    dictGet (buildOkRecord p now url page t) "source_name"
      = some (JVal.str (extractAuthor page)) := rfl

/-! ### Concrete inputs used by the closed examples -/

/-- A page on which every `soup.find` comes back empty. -/
def blankPage : Page :=
  { titleTag := none, metaAuthor := none, metaOgSiteName := none,
    metaDescription := none, metaOgDescription := none, metaOgImage := none,
    firstP := none, metaArticlePublished := none, metaDateName := none,
    timeTag := none }

/-- A concrete stand-in for `dateutil.parser.parse` in the closed examples:
a fixed table of parseable strings; everything else raises. -/
def parseTable : String → Option PyDateTime := fun s =>
  if s = "dateA" then some ⟨2023, 1, 1, 12, 0, 0, some 300⟩
  else if s = "dateB" then some ⟨2023, 1, 1, 10, 0, 0, some 0⟩
  else if s = "2024-01-02T10:00:00" then some ⟨2024, 1, 2, 10, 0, 0, none⟩
  else none

/-- A fixed "current instant" for the closed examples. -/
def now0 : PyDateTime := ⟨2024, 1, 1, 0, 0, 0, some 0⟩

/-! ### Claim C1 -/

/-- C1 (amended): for every non-empty configured site list in which no
successfully fetched page has a title tag without a direct string,
`scrape_data_to_json` returns exactly one record per configured site.  (As
stated, the claim fails: an `AttributeError` raised while extracting the
title is not caught by the per-site handler and aborts the aggregation.) -/
theorem c1_record_count (p : String → Option PyDateTime) (now : PyDateTime)
    (sites : List Site) (hne : sites ≠ [])
    (hsafe : ∀ s ∈ sites, titleSafe s = true) :
    ∃ l, scrape_data_to_json p now sites = Except.ok l ∧
      l.length = sites.length := by
  obtain ⟨recs, hm, hlen⟩ := mapExcept_ok_of_safe p now sites hsafe
  cases sites with
  | nil => exact absurd rfl hne
  | cons s rest =>
    refine ⟨sortDescByPub recs, ?_, ?_⟩
    · simp [scrape_data_to_json, hm]
    · rw [sortDescByPub_length, hlen]

def c1Sites : List Site :=
  [⟨"https://a.example", FetchOutcome.ok blankPage⟩,
   ⟨"https://b.example", FetchOutcome.reqError "timeout"⟩]

/-- C1 witness: two configured sites (one fetch success, one fetch failure)
yield exactly two records. -/
theorem c1_record_count_witness :
    ∃ l, scrape_data_to_json parseTable now0 c1Sites = Except.ok l ∧
      l.length = c1Sites.length :=
  c1_record_count parseTable now0 c1Sites (by decide) (by decide)

/-- A fetched page whose `<title>` tag has no direct string:
`soup.title.string` is `None`. -/
def badTitlePage : Page := { blankPage with titleTag := some none }

/-- C1 counterexample: a single configured site whose fetch succeeds but
whose title extraction raises makes the whole aggregation abort with an
uncaught `AttributeError` — no record list of length 1 is returned. -/
theorem c1_counterexample :
    scrape_data_to_json parseTable now0
        [⟨"https://bad.example", FetchOutcome.ok badTitlePage⟩]
      = Except.error PyExn.attributeError := by decide

/-! ### Claim C2 -/

/-- C2 (amended): the aggregation output is the stable descending sort of
the per-site records by the `pub_date` ISO-8601 string: adjacent records
`A` before `B` satisfy `¬(A.pub_date < B.pub_date)` lexicographically, and
records with equal `pub_date` strings keep their original configured order
(the filter at every key value is unchanged).  (As stated — chronological
descending order — the claim fails when records carry different UTC
offsets, since the code compares the ISO strings, not the instants.) -/
theorem c2_sorted_stable (p : String → Option PyDateTime) (now : PyDateTime)
    (sites : List Site) (recs : List Record) (hne : sites ≠ [])
    (hm : mapExcept (processSite p now) sites = Except.ok recs) :
    scrape_data_to_json p now sites = Except.ok (sortDescByPub recs) ∧
    List.Chain' (fun a b => strLt (pubKey a) (pubKey b) = false)
      (sortDescByPub recs) ∧
    ∀ k, (sortDescByPub recs).filter (fun r => pubKey r == k)
          = recs.filter (fun r => pubKey r == k) := by
  refine ⟨?_, sortDescByPub_chain recs, fun k => sortDescByPub_filter k recs⟩
  cases sites with
  | nil => exact absurd rfl hne
  | cons s rest => simp [scrape_data_to_json, hm]

def c2SiteA : Site :=
  ⟨"https://a2.example",
   FetchOutcome.ok { blankPage with metaDateName := some (some "dateA") }⟩

def c2SiteB : Site :=
  ⟨"https://b2.example",
   FetchOutcome.ok { blankPage with metaDateName := some (some "dateB") }⟩

def c2Recs : List Record :=
  [buildOkRecord parseTable now0 "https://a2.example"
     { blankPage with metaDateName := some (some "dateA") }
     ("Untitled Page: " ++ "https://a2.example"),
   buildOkRecord parseTable now0 "https://b2.example"
     { blankPage with metaDateName := some (some "dateB") }
     ("Untitled Page: " ++ "https://b2.example")]

/-- C2 witness: the two-site run is sorted and stable as the theorem
states. -/
theorem c2_sorted_stable_witness :
    scrape_data_to_json parseTable now0 [c2SiteA, c2SiteB]
        = Except.ok (sortDescByPub c2Recs) ∧
    List.Chain' (fun a b => strLt (pubKey a) (pubKey b) = false)
      (sortDescByPub c2Recs) ∧
    ∀ k, (sortDescByPub c2Recs).filter (fun r => pubKey r == k)
          = c2Recs.filter (fun r => pubKey r == k) :=
  c2_sorted_stable parseTable now0 [c2SiteA, c2SiteB] c2Recs
    (by decide) (by decide)

def dtA : PyDateTime := ⟨2023, 1, 1, 12, 0, 0, some 300⟩

def dtB : PyDateTime := ⟨2023, 1, 1, 10, 0, 0, some 0⟩

/-- C2 counterexample: with one record dated `2023-01-01T12:00:00+05:00`
(07:00 UTC) and the other `2023-01-01T10:00:00+00:00` (10:00 UTC), the
output places the `+05:00` record first although it is chronologically
earlier — adjacent `A` before `B` with `A.pubDate < B.pubDate` as
instants. -/
theorem c2_counterexample :
    (scrape_data_to_json parseTable now0 [c2SiteA, c2SiteB]).map
        (fun l => l.map pubKey)
      = Except.ok [isoString dtA, isoString dtB] ∧
    toInstantSec dtA < toInstantSec dtB := by
  constructor
  · decide
  · decide

/-! ### Claim C3 -/

/-- C3 (amended): when the page has an `og:image` meta tag with a `content`
attribute, the success record's `image_url` is that content verbatim
(whitespace-stripped) — the code performs no base-URL resolution (`urljoin`
is imported but never called), so a root-relative path such as `/img.png`
stays `/img.png`. -/
theorem c3_image_verbatim (p : String → Option PyDateTime) (now : PyDateTime)
    (url : String) (page : Page) (c : String) (r : Record)
    (hog : page.metaOgImage = some (some c))
    (hr : processSite p now ⟨url, FetchOutcome.ok page⟩ = Except.ok r) :
    dictGet r "image_url" = some (JVal.str (pyStrip c)) := by
  cases htt : page.titleTag with
  | none =>
    simp only [processSite, htt, Except.ok.injEq] at hr
    subst hr
    rw [buildOk_image]
    simp [extractImage, hog]
  | some t =>
    cases t with
    | none => simp [processSite, htt] at hr
    | some ts =>
      simp only [processSite, htt, Except.ok.injEq] at hr
      subst hr
      rw [buildOk_image]
      simp [extractImage, hog]

def c3Page : Page := { blankPage with metaOgImage := some (some "/img.png") }

/-- C3 witness: `og:image = "/img.png"` on the page at
`https://example.com/articles/x` yields `image_url = "/img.png"`
(stripped verbatim). -/
theorem c3_image_verbatim_witness :
    dictGet (buildOkRecord parseTable now0 "https://example.com/articles/x"
        c3Page ("Untitled Page: " ++ "https://example.com/articles/x"))
        "image_url"
      = some (JVal.str (pyStrip "/img.png")) :=
  c3_image_verbatim parseTable now0 "https://example.com/articles/x" c3Page
    "/img.png" _ rfl rfl

/-- C3 counterexample: the record's image URL is `/img.png`, not the
base-joined `https://example.com/img.png` the claim requires. -/
theorem c3_counterexample :
    (processSite parseTable now0
        ⟨"https://example.com/articles/x", FetchOutcome.ok c3Page⟩).map
        (fun r => dictGet r "image_url")
      = Except.ok (some (JVal.str "/img.png")) ∧
    ("/img.png" : String) ≠ "https://example.com/img.png" := by
  constructor
  · rfl
  · decide

/-! ### Claim C4 -/

/-- C4 (amended): when neither `og:description` nor `meta[name=description]`
yields a (non-empty, stripped) value, the description is the first `<p>`
tag's stripped text, hard-truncated to 200 characters plus `"..."` when
longer than 200 — there is no main-content-region selector and no
500-character rule in the code. -/
theorem c4_description_firstP (p : String → Option PyDateTime)
    (now : PyDateTime) (url : String) (page : Page) (t : String) (r : Record)
    (hmeta : metaDescriptionValue page = "")
    (hp : page.firstP = some t)
    (hlen : 200 < (pyStrip t).length)
    (hr : processSite p now ⟨url, FetchOutcome.ok page⟩ = Except.ok r) :
    dictGet r "description"
      = some (JVal.str (pyTake (pyStrip t) 200 ++ "...")) := by
  cases htt : page.titleTag with
  | none =>
    simp only [processSite, htt, Except.ok.injEq] at hr
    subst hr
    rw [buildOk_description]
    simp [extractDescription, hmeta, hp, hlen]
  | some t2 =>
    cases t2 with
    | none => simp [processSite, htt] at hr
    | some ts =>
      simp only [processSite, htt, Except.ok.injEq] at hr
      subst hr
      rw [buildOk_description]
      simp [extractDescription, hmeta, hp, hlen]

def c4wPage : Page :=
  { blankPage with firstP := some (String.mk (List.replicate 201 'b')) }

set_option maxRecDepth 10000 in
/-- C4 witness: a 201-character paragraph with no usable meta description is
cut to its first 200 characters plus `"..."`. -/
theorem c4_description_firstP_witness :
    dictGet (buildOkRecord parseTable now0 "https://w4.example" c4wPage
        ("Untitled Page: " ++ "https://w4.example")) "description"
      = some (JVal.str
          (pyTake (pyStrip (String.mk (List.replicate 201 'b'))) 200 ++ "...")) :=
  c4_description_firstP parseTable now0 "https://w4.example" c4wPage
    (String.mk (List.replicate 201 'b')) _ rfl rfl (by decide) rfl

def c4Page : Page :=
  { blankPage with firstP := some (String.mk (List.replicate 650 'a')) }

set_option maxRecDepth 40000 in
/-- C4 counterexample: a 650-character paragraph source yields 200
characters plus `"..."` (length 203), not the 500-character cut the claim
states. -/
theorem c4_counterexample :
    (processSite parseTable now0
        ⟨"https://long.example", FetchOutcome.ok c4Page⟩).map
        (fun r => dictGet r "description")
      = Except.ok (some (JVal.str (String.mk (List.replicate 200 'a') ++ "..."))) ∧
    (String.mk (List.replicate 200 'a') ++ "...").length = 203 ∧
    String.mk (List.replicate 200 'a') ++ "..."
      ≠ pyTake (String.mk (List.replicate 650 'a')) 500 ++ "..." := by
  refine ⟨?_, ?_, ?_⟩
  · rfl
  · decide
  · decide

/-! ### Claim C5 -/

/-- C5: `extract_date` scans `article:published_time`, `meta[name=date]`,
`<time datetime>` in fixed order; a candidate that is absent, empty or
unparseable is skipped without aborting the chain; the first parseable
candidate wins (tz-stamped UTC when naive); if no candidate parses, the
current instant (UTC) is returned.  In particular an unparseable
`<time datetime>` together with a valid `meta[name=date]` yields the valid
date. -/
theorem c5_date_chain (p : String → Option PyDateTime) (now : PyDateTime)
    (page : Page) :
    (∀ s dt, tryTag p page.metaArticlePublished = none →
      page.metaDateName = some (some s) → s ≠ "" → p s = some dt →
      extract_date p now page = tzFix dt) ∧
    (tryTag p page.metaArticlePublished = none →
      tryTag p page.metaDateName = none →
      tryTag p (Option.map some page.timeTag) = none →
      extract_date p now page = now) := by
  constructor
  · intro s dt h1 h2 h3 h4
    unfold extract_date
    rw [h1, h2]
    simp [tryTag, h3, h4]
  · intro h1 h2 h3
    unfold extract_date
    rw [h1, h2, h3]

def c5Page : Page :=
  { blankPage with metaDateName := some (some "2024-01-02T10:00:00"),
                   timeTag := some "not-a-date" }

/-- C5 witness: `<time datetime="not-a-date">` plus a valid
`meta[name=date]` yields the parsed meta date, stamped UTC. -/
theorem c5_date_chain_witness :
    extract_date parseTable now0 c5Page = tzFix ⟨2024, 1, 2, 10, 0, 0, none⟩ :=
  (c5_date_chain parseTable now0 c5Page).1 "2024-01-02T10:00:00"
    ⟨2024, 1, 2, 10, 0, 0, none⟩ rfl rfl (by decide) rfl

/-! ### Claim C6 -/

/-- C6 (amended): a fetch failure is caught per site and synthesised into a
well-formed record whose title is `"Scraping Failed for: <url>"` (containing
`"Failed"`), whose description contains the underlying diagnostic text,
whose author is `"System Error"` and source_name `"Error"`, and whose
`pub_date` is the current instant.  (As stated, the claim fails: the record
carries no `status` key at all, and its source_name is the bare `"Error"`,
not a network-error sentinel distinct from the parse case.) -/
theorem c6_failure_record (p : String → Option PyDateTime) (now : PyDateTime)
    (url msg : String) :
    processSite p now ⟨url, FetchOutcome.reqError msg⟩
      = Except.ok (failRecord url msg now) ∧
    dictGet (failRecord url msg now) "title"
      = some (JVal.str ("Scraping Failed for: " ++ url)) ∧
    hasSubStr "Failed" ("Scraping Failed for: " ++ url) = true ∧
    dictGet (failRecord url msg now) "description"
      = some (JVal.str ("Could not reach or parse site. Error: " ++ msg)) ∧
    hasSubStr msg ("Could not reach or parse site. Error: " ++ msg) = true ∧
    dictGet (failRecord url msg now) "author" = some (JVal.str "System Error") ∧
    dictGet (failRecord url msg now) "source_name" = some (JVal.str "Error") ∧
    dictGet (failRecord url msg now) "pub_date"
      = some (JVal.str (isoString now)) ∧
    dictGet (failRecord url msg now) "status" = none := by
  refine ⟨rfl, rfl, ?_, rfl, ?_, rfl, rfl, rfl, rfl⟩
  · have h : hasSub ("Failed".data) ("Scraping Failed for: ".data) = true := by
      decide
    exact hasSub_append_left "Scraping Failed for: ".data url.data h
  · exact hasSub_append_right "Could not reach or parse site. Error: ".data
      msg.data (hasSub_self msg.data)

/-- C6 counterexample: the synthesised failure record has no `status` key
(the claim requires `status = fetchFailed`), and its `source_name` is the
bare `"Error"`. -/
theorem c6_counterexample :
    (processSite parseTable now0
        ⟨"https://down.example", FetchOutcome.reqError "connection refused"⟩).map
        (fun r => (dictGet r "status", dictGet r "source_name"))
      = Except.ok (none, some (JVal.str "Error")) ∧
    (none : Option JVal) ≠ some (JVal.str "fetchFailed") := by
  constructor
  · rfl
  · decide

/-! ### Claim C7 -/

/-- C7 (amended): the success record's title is the page `<title>` string
trimmed when present, else `"Untitled Page: <url>"` — with no further
post-processing.  (As stated, the claim fails: the code applies no
character stripping to the title, so characters outside word characters,
whitespace, hyphen, pipe and ampersand survive.) -/
theorem c7_title_no_strip (p : String → Option PyDateTime) (now : PyDateTime)
    (url : String) (page : Page) (r : Record)
    (hr : processSite p now ⟨url, FetchOutcome.ok page⟩ = Except.ok r) :
    (∀ s, page.titleTag = some (some s) →
      dictGet r "title" = some (JVal.str (pyStrip s))) ∧
    (page.titleTag = none →
      dictGet r "title" = some (JVal.str ("Untitled Page: " ++ url))) := by
  constructor
  · intro s hs
    simp only [processSite, hs, Except.ok.injEq] at hr
    subst hr
    exact buildOk_title p now url page (pyStrip s)
  · intro hs
    simp only [processSite, hs, Except.ok.injEq] at hr
    subst hr
    exact buildOk_title p now url page ("Untitled Page: " ++ url)

/-- Modelled from the spec: the claimed XML-safety post-processing — keep
only word characters (alphanumerics and underscore), whitespace, hyphen,
pipe and ampersand.  Present only to compare against; the code has no such
step. -/
def specAllowedChar (c : Char) : Bool :=
  c.isAlphanum || c = '_' || c.isWhitespace || c = '-' || c = '|' || c = '&'

/-- Modelled from the spec: strip every character outside the allowed
set. -/
def specXmlStrip (s : String) : String :=
  String.mk (s.data.filter specAllowedChar)

def c7Page : Page := { blankPage with titleTag := some (some "a<b>!") }

/-- C7 witness: a trimmed raw title is stored verbatim. -/
theorem c7_title_no_strip_witness :
    dictGet (buildOkRecord parseTable now0 "https://t7.example" c7Page
        (pyStrip "a<b>!")) "title"
      = some (JVal.str (pyStrip "a<b>!")) :=
  (c7_title_no_strip parseTable now0 "https://t7.example" c7Page _ rfl).1
    "a<b>!" rfl

/-- C7 counterexample: the title `a<b>!` reaches the record unchanged, yet
the claimed post-processing would have removed `<`, `>` and `!`. -/
theorem c7_counterexample :
    (processSite parseTable now0
        ⟨"https://t7x.example", FetchOutcome.ok c7Page⟩).map
        (fun r => dictGet r "title")
      = Except.ok (some (JVal.str "a<b>!")) ∧
    specXmlStrip "a<b>!" ≠ "a<b>!" := by
  constructor
  · rfl
  · decide

/-! ### Claim C8 -/

/-- C8 (amended): every successfully extracted record has
`source_name = author` (the code stores the author value under both keys);
synthesized fetch-failure records do not — their author is
`"System Error"` while their source_name is `"Error"`. -/
theorem c8_source_eq_author (p : String → Option PyDateTime)
    (now : PyDateTime) (url : String) (page : Page) (r : Record)
    (hr : processSite p now ⟨url, FetchOutcome.ok page⟩ = Except.ok r) :
    dictGet r "author" = dictGet r "source_name" := by
  cases htt : page.titleTag with
  | none =>
    simp only [processSite, htt, Except.ok.injEq] at hr
    subst hr
    rw [buildOk_author, buildOk_source]
  | some t =>
    cases t with
    | none => simp [processSite, htt] at hr
    | some ts =>
      simp only [processSite, htt, Except.ok.injEq] at hr
      subst hr
      rw [buildOk_author, buildOk_source]

/-- C8 witness: on a successfully fetched page the record's author and
source_name coincide. -/
theorem c8_source_eq_author_witness :
    dictGet (buildOkRecord parseTable now0 "https://a8.example" blankPage
        ("Untitled Page: " ++ "https://a8.example")) "author"
      = dictGet (buildOkRecord parseTable now0 "https://a8.example" blankPage
          ("Untitled Page: " ++ "https://a8.example")) "source_name" :=
  c8_source_eq_author parseTable now0 "https://a8.example" blankPage _ rfl

/-- C8 counterexample: a fetch-failure record has author `"System Error"`
but source_name `"Error"` — the two fields differ. -/
theorem c8_counterexample :
    (processSite parseTable now0
        ⟨"https://down8.example", FetchOutcome.reqError "timeout"⟩).map
        (fun r => (dictGet r "author", dictGet r "source_name"))
      = Except.ok (some (JVal.str "System Error"), some (JVal.str "Error")) ∧
    some (JVal.str "System Error") ≠ some (JVal.str "Error") := by
  constructor
  · rfl
  · decide

/-! ### Claim C9 -/

/-- C9: with an empty configured URL list the aggregation returns the single
error-sentinel object (a one-element list, never the empty list), and any
two calls on empty input — whatever the clock or the date parser — return
that same designated document. -/
theorem c9_empty_sentinel (p q : String → Option PyDateTime)
    (now now2 : PyDateTime) :
    scrape_data_to_json p now []
      = Except.ok [[("error", JVal.str "No sites configured in sites.txt")]] ∧
    ([[("error", JVal.str "No sites configured in sites.txt")]] : List Record).length = 1 ∧
    scrape_data_to_json p now [] = scrape_data_to_json q now2 [] :=
  ⟨rfl, rfl, rfl⟩

/-! ### Claim C10 -/

/-- C10: the RSS entry loop skips every data item carrying an `error` key,
so for the empty-configuration run — whose data is exactly the one
error-sentinel object — the rendered channel contains zero items. -/
theorem c10_rss_skips_error (q : String → Option PyDateTime)
    (fmt : PyDateTime → String) (item : Record) (rest : List Record)
    (p : String → Option PyDateTime) (now : PyDateTime) (d : List Record) :
    ((dictGet item "error").isSome = true →
      rss_feed_entries q fmt (item :: rest) = rss_feed_entries q fmt rest) ∧
    (scrape_data_to_json p now [] = Except.ok d →
      rss_feed_entries q fmt d = Except.ok []) := by
  constructor
  · intro h
    have hf : (dictGet item "error").isNone = false := by
      cases hdg : dictGet item "error" with
      | none => rw [hdg] at h; simp at h
      | some v => simp
    simp [rss_feed_entries, List.filter_cons, hf]
  · intro h
    have h0 : scrape_data_to_json p now []
        = Except.ok [[("error", JVal.str "No sites configured in sites.txt")]] := rfl
    rw [h0] at h
    injection h with hd
    subst hd
    rfl

def c10Item : Record := [("error", JVal.str "No sites configured in sites.txt")]

/-- C10 witness: the error sentinel is skipped, and the
empty-configuration data renders to zero items. -/
theorem c10_rss_skips_error_witness :
    rss_feed_entries parseTable isoString (c10Item :: [])
        = rss_feed_entries parseTable isoString [] ∧
    rss_feed_entries parseTable isoString [c10Item] = Except.ok [] :=
  ⟨(c10_rss_skips_error parseTable isoString c10Item [] parseTable now0
      [c10Item]).1 (by decide),
   (c10_rss_skips_error parseTable isoString c10Item [] parseTable now0
      [c10Item]).2 rfl⟩
